import Mathlib

/-!
# ManifestMetaInfoHandler (SceneAPI/SceneData)

A shallow embedding of `ManifestMetaInfoHandler.cpp`: the constructor and destructor
(bus connection), `GetAvailableModifiers` (which rule types may still be added to a
group) and `InitializeObject` (the fix-up of a fresh physics rule).

Modelling conventions
* `AZ::Uuid` values are natural numbers; the `TYPEINFO_Uuid()` constants of the classes
  come from headers outside the excerpt and are a parameter (`TypeIds`).
* `#if defined(MOTIONCANVAS_GEM_ENABLED)` is a boolean parameter of the embedding.
* C++ undefined behaviour that the handler could run into (indexing a rule container
  out of range, dereferencing a null rule pointer) is an explicit `Fault`.
* `azrtti_cast<T*>(&target)` after a successful `RTTI_IsTypeOf(T)` yields the object
  itself, so the interface data (rule container, node selection list) are fields of
  the object.
-/

namespace SceneData

/-! ## Data model -/

/-- A type identifier (`AZ::Uuid`), kept as its numeric value. -/
abbrev Uuid := Nat

/-- The list the bus callback appends to (`AZStd::vector<AZ::Uuid>`). -/
abbrev ModifiersList := List Uuid

/-- Appending at the end of a vector (`push_back`). -/
def ModifiersList.push_back (v : ModifiersList) (id : Uuid) : ModifiersList :=
  v ++ [id]

/-- Modelled from the spec: the `TYPEINFO_Uuid()` constant of every class the handler
names; the values are declared by headers outside the excerpt, so they are a parameter. -/
structure TypeIds where
  IMeshGroup : Uuid
  ISkinGroup : Uuid
  ISkeletonGroup : Uuid
  IAnimationGroup : Uuid
  IActorGroup : Uuid
  IEFXMotionGroup : Uuid
  IPhysicsRule : Uuid
  CommentRule : Uuid
  LodRule : Uuid
  MaterialRule : Uuid
  StaticMeshAdvancedRule : Uuid
  OriginRule : Uuid
  PhysicsRule : Uuid
  BlendShapeRule : Uuid
  SkinMeshAdvancedRule : Uuid
  SkeletonProxyRule : Uuid
  EFXMeshRule : Uuid
  EFXSkinRule : Uuid
  EFXMotionCompressionSettingsRule : Uuid
  EFXMotionScaleRule : Uuid
  EFXActorScaleRule : Uuid
  deriving DecidableEq, Repr

/-- What can go wrong at the C++ level inside the handler. -/
inductive Fault where
  | ruleIndexOutOfRange
  | nullRule
  deriving DecidableEq, Repr

/-- Modelled from the spec: `DataTypes::ISceneNodeSelectionList` is declared outside the
excerpt; a selection list names the selected and the unselected nodes of a graph. -/
structure SceneNodeSelectionList where
  selectedNodes : List String
  unselectedNodes : List String
  deriving DecidableEq, Repr

/-- Modelled from the spec: `DataTypes::IRule` is declared outside the excerpt; a rule
attached to a group has an exact type, the types it derives from and further contents. -/
structure IRule where
  typeId : Uuid
  baseTypes : List Uuid
  contents : Nat
  deriving DecidableEq, Repr

/-- Exact type of a rule (`RTTI_GetType`). -/
def IRule.RTTI_GetType (rule : IRule) : Uuid :=
  rule.typeId

/-- Modelled from the spec: `Containers::RuleContainer` is declared outside the excerpt;
the rules attached to a group, a vector of shared pointers, each possibly null. -/
structure RuleContainer where
  m_rules : List (Option IRule)
  deriving DecidableEq, Repr

/-- Modelled from the spec: `RuleContainer::GetRuleCount`, the number of rule slots. -/
def RuleContainer.GetRuleCount (rules : RuleContainer) : Nat :=
  rules.m_rules.length

/-- Modelled from the spec: `RuleContainer::GetRule`, the pointer stored in slot `index`;
indexing past the end is a fault. -/
def RuleContainer.GetRule (rules : RuleContainer) (index : Nat) : Except Fault (Option IRule) :=
  match rules.m_rules[index]? with
  | some ptr => .ok ptr
  | none => .error .ruleIndexOutOfRange

/-- Modelled from the spec: `DataTypes::IManifestObject` is declared outside the excerpt;
an import target as the handler sees it: run-time type information, and the data behind the
interfaces it may be cast to. -/
structure IManifestObject where
  typeId : Uuid
  baseTypes : List Uuid
  ruleContainer : RuleContainer
  sceneNodeSelectionList : SceneNodeSelectionList
  contents : Nat
  deriving DecidableEq, Repr

/-- Modelled from the spec: `RTTI_IsTypeOf` of the host's type framework, true for the
exact type of the object and for each of its bases. -/
def IManifestObject.RTTI_IsTypeOf (target : IManifestObject) (id : Uuid) : Bool :=
  id == target.typeId || target.baseTypes.contains id

/-- Rule container of a group (`GetRuleContainerConst`). -/
def IManifestObject.GetRuleContainerConst (target : IManifestObject) : RuleContainer :=
  target.ruleContainer

/-- Node selection list of a physics rule (`GetSceneNodeSelectionList`). -/
def IManifestObject.GetSceneNodeSelectionList (target : IManifestObject) :
    SceneNodeSelectionList :=
  target.sceneNodeSelectionList

/-- Modelled from the spec: `Containers::SceneGraph` is declared outside the excerpt; the
scene graph, by the names of its nodes. -/
structure SceneGraph where
  nodeNames : List String
  deriving DecidableEq, Repr

/-- Modelled from the spec: `Containers::Scene` is declared outside the excerpt; a scene
owns a graph. -/
structure Scene where
  name : String
  graph : SceneGraph
  deriving DecidableEq, Repr

/-- Graph of a scene (`GetGraph`). -/
def Scene.GetGraph (scene : Scene) : SceneGraph :=
  scene.graph

/-! ## GetAvailableModifiers -/

/-- Body of `for (i = 0; i < ruleCount; ++i) existingRules.insert(rules.GetRule(i)->RTTI_GetType())`
over the remaining indices; `existingRules` is the `unordered_set` built so far. -/
def insertRuleTypes (rules : RuleContainer) : List Nat → List Uuid → Except Fault (List Uuid)
  | [], existingRules => .ok existingRules
  | i :: rest, existingRules =>
    match rules.GetRule i with
    | .error fault => .error fault
    | .ok none => .error .nullRule
    | .ok (some rule) => insertRuleTypes rules rest (existingRules.insert rule.RTTI_GetType)

/-- The set of exact types of the attached rules, as every group branch computes it. -/
def collectExistingRules (rules : RuleContainer) : Except Fault (List Uuid) :=
  let ruleCount := rules.GetRuleCount
  insertRuleTypes rules (List.range ruleCount) []

/-- The statement `if (existingRules.find(id) == existingRules.end()) modifiers.push_back(id);`. -/
def pushIfMissing (existingRules : List Uuid) (modifiers : ModifiersList) (id : Uuid) :
    ModifiersList :=
  if existingRules.contains id then modifiers else modifiers.push_back id

/-- Embedding of `ManifestMetaInfoHandler::GetAvailableModifiers`: the value of `modifiers`
when the call returns. -/
def GetAvailableModifiers (motionCanvasGemEnabled : Bool) (ids : TypeIds)
    (modifiers : ModifiersList) (_scene : Scene) (target : IManifestObject) :
    Except Fault ModifiersList :=
  if target.RTTI_IsTypeOf ids.IMeshGroup then do
    let modifiers := modifiers.push_back ids.CommentRule
    let rules := target.GetRuleContainerConst
    let existingRules ← collectExistingRules rules
    let modifiers := pushIfMissing existingRules modifiers ids.LodRule
    let modifiers := pushIfMissing existingRules modifiers ids.MaterialRule
    let modifiers := pushIfMissing existingRules modifiers ids.StaticMeshAdvancedRule
    let modifiers := pushIfMissing existingRules modifiers ids.OriginRule
    let modifiers := pushIfMissing existingRules modifiers ids.PhysicsRule
    pure modifiers
  else if target.RTTI_IsTypeOf ids.ISkinGroup then do
    let modifiers := modifiers.push_back ids.CommentRule
    let rules := target.GetRuleContainerConst
    let existingRules ← collectExistingRules rules
    let modifiers := pushIfMissing existingRules modifiers ids.BlendShapeRule
    let modifiers := pushIfMissing existingRules modifiers ids.LodRule
    let modifiers := pushIfMissing existingRules modifiers ids.MaterialRule
    let modifiers := pushIfMissing existingRules modifiers ids.SkinMeshAdvancedRule
    pure modifiers
  else if target.RTTI_IsTypeOf ids.ISkeletonGroup then do
    let modifiers := modifiers.push_back ids.CommentRule
    let rules := target.GetRuleContainerConst
    let existingRules ← collectExistingRules rules
    let modifiers := pushIfMissing existingRules modifiers ids.SkeletonProxyRule
    pure modifiers
  else if target.RTTI_IsTypeOf ids.IAnimationGroup then
    pure (modifiers.push_back ids.CommentRule)
  else if motionCanvasGemEnabled && target.RTTI_IsTypeOf ids.IActorGroup then do
    let modifiers := modifiers.push_back ids.CommentRule
    let rules := target.GetRuleContainerConst
    let existingRules ← collectExistingRules rules
    let modifiers := pushIfMissing existingRules modifiers ids.EFXMeshRule
    let modifiers := pushIfMissing existingRules modifiers ids.MaterialRule
    let modifiers := pushIfMissing existingRules modifiers ids.EFXSkinRule
    let modifiers := pushIfMissing existingRules modifiers ids.EFXActorScaleRule
    pure modifiers
  else if motionCanvasGemEnabled && target.RTTI_IsTypeOf ids.IEFXMotionGroup then do
    let modifiers := modifiers.push_back ids.CommentRule
    let rules := target.GetRuleContainerConst
    let existingRules ← collectExistingRules rules
    let modifiers := pushIfMissing existingRules modifiers ids.EFXMotionCompressionSettingsRule
    let modifiers := pushIfMissing existingRules modifiers ids.EFXMotionScaleRule
    pure modifiers
  else
    pure modifiers

/-- The entries a call appends: the result of the call on an empty list (nothing when the
call faults). -/
def appendedEntries (motionCanvasGemEnabled : Bool) (ids : TypeIds) (scene : Scene)
    (target : IManifestObject) : List Uuid :=
  match GetAvailableModifiers motionCanvasGemEnabled ids [] scene target with
  | .ok entries => entries
  | .error _ => []

/-- The group interfaces the handler recognises in a given build. -/
def recognisedGroupKinds (motionCanvasGemEnabled : Bool) (ids : TypeIds) : List Uuid :=
  [ids.IMeshGroup, ids.ISkinGroup, ids.ISkeletonGroup, ids.IAnimationGroup] ++
    (if motionCanvasGemEnabled then [ids.IActorGroup, ids.IEFXMotionGroup] else [])

/-- A target of at least one recognised group kind. -/
def isRecognisedGroup (motionCanvasGemEnabled : Bool) (ids : TypeIds)
    (target : IManifestObject) : Bool :=
  (recognisedGroupKinds motionCanvasGemEnabled ids).any (fun kind => target.RTTI_IsTypeOf kind)

/-- Every rule type the handler can offer, listed in an order that agrees with the order of
each branch. -/
def TypeIds.ruleTypes (ids : TypeIds) : List Uuid :=
  [ids.CommentRule, ids.BlendShapeRule, ids.LodRule, ids.EFXMeshRule, ids.MaterialRule,
    ids.StaticMeshAdvancedRule, ids.OriginRule, ids.PhysicsRule, ids.SkinMeshAdvancedRule,
    ids.SkeletonProxyRule, ids.EFXSkinRule, ids.EFXActorScaleRule,
    ids.EFXMotionCompressionSettingsRule, ids.EFXMotionScaleRule]

/-- The table of the branch `GetAvailableModifiers` takes: the rule types tested after
`CommentRule` by the first group kind, in the order of the `else if` chain, that the target
is of; `none` when no branch is taken. -/
def branchTable (motionCanvasGemEnabled : Bool) (ids : TypeIds) (target : IManifestObject) :
    Option (List Uuid) :=
  if target.RTTI_IsTypeOf ids.IMeshGroup then
    some [ids.LodRule, ids.MaterialRule, ids.StaticMeshAdvancedRule, ids.OriginRule,
      ids.PhysicsRule]
  else if target.RTTI_IsTypeOf ids.ISkinGroup then
    some [ids.BlendShapeRule, ids.LodRule, ids.MaterialRule, ids.SkinMeshAdvancedRule]
  else if target.RTTI_IsTypeOf ids.ISkeletonGroup then
    some [ids.SkeletonProxyRule]
  else if target.RTTI_IsTypeOf ids.IAnimationGroup then
    some []
  else if motionCanvasGemEnabled && target.RTTI_IsTypeOf ids.IActorGroup then
    some [ids.EFXMeshRule, ids.MaterialRule, ids.EFXSkinRule, ids.EFXActorScaleRule]
  else if motionCanvasGemEnabled && target.RTTI_IsTypeOf ids.IEFXMotionGroup then
    some [ids.EFXMotionCompressionSettingsRule, ids.EFXMotionScaleRule]
  else
    none

/-- First-match dispatch as a table, to be compared with the `else if` chain: the
recognised group kinds in the fixed order mesh, skin, skeleton, animation (then actor and
motion in a build with MOTIONCANVAS_GEM_ENABLED), each with the rule types offered for it
besides `CommentRule`. -/
def kindTables (motionCanvasGemEnabled : Bool) (ids : TypeIds) : List (Uuid × List Uuid) :=
  [(ids.IMeshGroup,
      [ids.LodRule, ids.MaterialRule, ids.StaticMeshAdvancedRule, ids.OriginRule,
        ids.PhysicsRule]),
    (ids.ISkinGroup,
      [ids.BlendShapeRule, ids.LodRule, ids.MaterialRule, ids.SkinMeshAdvancedRule]),
    (ids.ISkeletonGroup, [ids.SkeletonProxyRule]),
    (ids.IAnimationGroup, [])] ++
    (if motionCanvasGemEnabled then
      [(ids.IActorGroup,
          [ids.EFXMeshRule, ids.MaterialRule, ids.EFXSkinRule, ids.EFXActorScaleRule]),
        (ids.IEFXMotionGroup,
          [ids.EFXMotionCompressionSettingsRule, ids.EFXMotionScaleRule])]
    else [])

/-- The same object with the rules `rs` (none of them null) in its rule container. -/
def IManifestObject.withRules (target : IManifestObject) (rs : List IRule) : IManifestObject :=
  { target with ruleContainer := { m_rules := rs.map some } }

/-! ## InitializeObject -/

namespace SceneGraphSelector

/-- Modelled from the spec: `Utilities::SceneGraphSelector::UnselectAll` lives in SceneCore,
outside the excerpt. After it no node of the graph remains selected: the selected list is
emptied and every node of the graph is listed as unselected. -/
def UnselectAll (graph : SceneGraph) (_list : SceneNodeSelectionList) : SceneNodeSelectionList :=
  { selectedNodes := [], unselectedNodes := graph.nodeNames }

end SceneGraphSelector

/-- Embedding of `ManifestMetaInfoHandler::InitializeObject`: the scene (passed by const
reference) and the target after the call. -/
def InitializeObject (ids : TypeIds) (scene : Scene) (target : IManifestObject) :
    Scene × IManifestObject :=
  if target.RTTI_IsTypeOf ids.IPhysicsRule then
    (scene, { target with
      sceneNodeSelectionList :=
        SceneGraphSelector.UnselectAll scene.GetGraph target.GetSceneNodeSelectionList })
  else
    (scene, target)

/-! ## Lifetime of the handler -/

/-- The handler object: whether it is constructed, and whether it is attached to the
notification bus. -/
structure ManifestMetaInfoHandler where
  alive : Bool
  connected : Bool
  deriving DecidableEq, Repr

namespace ManifestMetaInfoHandler

/-- Modelled from the spec: `BusConnect` belongs to the host's bus handler base class,
outside the excerpt; it attaches the handler to the notification bus. -/
def BusConnect (self : ManifestMetaInfoHandler) : ManifestMetaInfoHandler :=
  { self with connected := true }

/-- Modelled from the spec: `BusDisconnect` belongs to the host's bus handler base class,
outside the excerpt; it detaches the handler from the notification bus. -/
def BusDisconnect (self : ManifestMetaInfoHandler) : ManifestMetaInfoHandler :=
  { self with connected := false }

/-- Storage that holds no handler yet. -/
def unconstructed : ManifestMetaInfoHandler :=
  { alive := false, connected := false }

/-- The constructor `ManifestMetaInfoHandler()`: the object comes alive and its body calls
`BusConnect()`. -/
def construct (self : ManifestMetaInfoHandler) : ManifestMetaInfoHandler :=
  BusConnect { self with alive := true }

/-- The destructor `~ManifestMetaInfoHandler()`: its body calls `BusDisconnect()` and the
object's lifetime ends. -/
def destruct (self : ManifestMetaInfoHandler) : ManifestMetaInfoHandler :=
  { BusDisconnect self with alive := false }

/-- The member function `GetAvailableModifiers` on a handler object: the handler after the
call and the value of `modifiers`. -/
def callGetAvailableModifiers (self : ManifestMetaInfoHandler) (motionCanvasGemEnabled : Bool)
    (ids : TypeIds) (modifiers : ModifiersList) (scene : Scene) (target : IManifestObject) :
    ManifestMetaInfoHandler × Except Fault ModifiersList :=
  (self, SceneData.GetAvailableModifiers motionCanvasGemEnabled ids modifiers scene target)

/-- The member function `InitializeObject` on a handler object: the handler after the call,
the scene and the target. -/
def callInitializeObject (self : ManifestMetaInfoHandler) (ids : TypeIds) (scene : Scene)
    (target : IManifestObject) : ManifestMetaInfoHandler × Scene × IManifestObject :=
  (self, SceneData.InitializeObject ids scene target)

/-- One step in the life of a handler: it is constructed, destroyed, or (while alive) one
of its two callbacks runs. -/
inductive Step : ManifestMetaInfoHandler → ManifestMetaInfoHandler → Prop where
  | construct (self : ManifestMetaInfoHandler) :
      self.alive = false → Step self self.construct
  | destruct (self : ManifestMetaInfoHandler) :
      self.alive = true → Step self self.destruct
  | getAvailableModifiers (self : ManifestMetaInfoHandler) (gem : Bool) (ids : TypeIds)
      (modifiers : ModifiersList) (scene : Scene) (target : IManifestObject) :
      self.alive = true →
      Step self (self.callGetAvailableModifiers gem ids modifiers scene target).1
  | initializeObject (self : ManifestMetaInfoHandler) (ids : TypeIds) (scene : Scene)
      (target : IManifestObject) :
      self.alive = true → Step self (self.callInitializeObject ids scene target).1

/-- The handler states that occur, starting from storage without a handler. -/
inductive Reachable : ManifestMetaInfoHandler → Prop where
  | start : Reachable unconstructed
  | step {a b : ManifestMetaInfoHandler} : Reachable a → Step a b → Reachable b

end ManifestMetaInfoHandler

/-! ## Sample data -/

/-- Some pairwise distinct type identifiers. -/
def sampleTypeIds : TypeIds :=
  { IMeshGroup := 1, ISkinGroup := 2, ISkeletonGroup := 3, IAnimationGroup := 4,
    IActorGroup := 5, IEFXMotionGroup := 6, IPhysicsRule := 7, CommentRule := 10,
    LodRule := 11, MaterialRule := 12, StaticMeshAdvancedRule := 13, OriginRule := 14,
    PhysicsRule := 15, BlendShapeRule := 16, SkinMeshAdvancedRule := 17,
    SkeletonProxyRule := 18, EFXMeshRule := 19, EFXSkinRule := 20,
    EFXMotionCompressionSettingsRule := 21, EFXMotionScaleRule := 22,
    EFXActorScaleRule := 23 }

/-- A scene with three graph nodes. -/
def sampleScene : Scene :=
  { name := "scene", graph := { nodeNames := ["root", "root.body", "root.body_phys"] } }

/-- A selection list that selects two nodes. -/
def sampleSelection : SceneNodeSelectionList :=
  { selectedNodes := ["root", "root.body"], unselectedNodes := [] }

/-- A rule of the given exact type. -/
def sampleRule (typeId : Uuid) : IRule :=
  { typeId := typeId, baseTypes := [], contents := 0 }

/-- An object of concrete class 100 + `kind` implementing interface `kind`, with the given
rules attached. -/
def sampleObject (kind : Uuid) (rules : List IRule) : IManifestObject :=
  { typeId := 100 + kind, baseTypes := [kind], ruleContainer := { m_rules := rules.map some },
    sceneNodeSelectionList := sampleSelection, contents := 0 }

/-! ## Auxiliary facts about the rule scan -/

/-- Reading a slot of a container all of whose slots hold a rule. -/
theorem GetRule_map_some (rules : RuleContainer) (rs : List IRule)
    (hrules : rules.m_rules = rs.map some) (i : Nat) (hi : i < rs.length) :
    rules.GetRule i = .ok (some (rs.get ⟨i, hi⟩)) := by
  unfold RuleContainer.GetRule
  rw [hrules]
  simp [List.getElem?_map, List.getElem?_eq_getElem hi]

/-- The scan of in-range indices over non-null rules succeeds, and collects the types
already present together with the exact types of the scanned rules. -/
theorem insertRuleTypes_map_some (rules : RuleContainer) (rs : List IRule)
    (hrules : rules.m_rules = rs.map some) (indices : List Nat)
    (hin : ∀ i ∈ indices, i < rs.length) (existingRules : List Uuid) :
    ∃ found, insertRuleTypes rules indices existingRules = .ok found ∧
      ∀ id, id ∈ found ↔
        id ∈ existingRules ∨ ∃ i ∈ indices, ∃ hi : i < rs.length, (rs.get ⟨i, hi⟩).typeId = id := by
  induction indices generalizing existingRules with
  | nil => exact ⟨existingRules, rfl, by simp⟩
  | cons i rest ih =>
    have hi : i < rs.length := hin i (List.mem_cons_self _ _)
    obtain ⟨found, hfound, hmem⟩ :=
      ih (fun j hj => hin j (List.mem_cons_of_mem _ hj))
        (existingRules.insert (rs.get ⟨i, hi⟩).RTTI_GetType)
    refine ⟨found, ?_, ?_⟩
    · simp only [insertRuleTypes, GetRule_map_some rules rs hrules i hi]
      exact hfound
    · intro id
      rw [hmem id]
      simp only [List.mem_insert_iff, IRule.RTTI_GetType, List.mem_cons, exists_eq_or_imp]
      constructor
      · rintro ((h | h) | h)
        · exact Or.inr (Or.inl ⟨hi, h.symm⟩)
        · exact Or.inl h
        · exact Or.inr (Or.inr h)
      · rintro (h | ⟨_, h⟩ | h)
        · exact Or.inl (Or.inr h)
        · exact Or.inl (Or.inl h.symm)
        · exact Or.inr h

/-- On a container of non-null rules the scan yields exactly the exact types of the rules. -/
theorem collectExistingRules_map_some (rules : RuleContainer) (rs : List IRule)
    (hrules : rules.m_rules = rs.map some) :
    ∃ found, collectExistingRules rules = .ok found ∧
      ∀ id, id ∈ found ↔ id ∈ rs.map IRule.RTTI_GetType := by
  have hcount : rules.GetRuleCount = rs.length := by
    simp [RuleContainer.GetRuleCount, hrules]
  obtain ⟨found, hfound, hmem⟩ :=
    insertRuleTypes_map_some rules rs hrules (List.range rs.length)
      (fun i hi => List.mem_range.mp hi) []
  refine ⟨found, ?_, ?_⟩
  · simp only [collectExistingRules, hcount]
    exact hfound
  · intro id
    rw [hmem id]
    simp only [List.not_mem_nil, false_or, List.mem_range, List.mem_map, IRule.RTTI_GetType]
    constructor
    · rintro ⟨i, _, hi, h⟩
      exact ⟨rs.get ⟨i, hi⟩, List.get_mem _ _ _, h⟩
    · rintro ⟨r, hr, h⟩
      obtain ⟨n, hn⟩ := List.get_of_mem hr
      exact ⟨n.1, n.2, n.2, by rw [← h, ← hn]⟩

/-- A run of `pushIfMissing` statements appends the entries of the table whose type is not
attached, in table order. -/
theorem foldl_pushIfMissing (found : List Uuid) (attached : List Uuid)
    (hmem : ∀ id, id ∈ found ↔ id ∈ attached) (table : List Uuid) (modifiers : ModifiersList) :
    table.foldl (pushIfMissing found) modifiers =
      modifiers ++ table.filter (fun id => decide (id ∉ attached)) := by
  induction table generalizing modifiers with
  | nil => simp
  | cons id rest ih =>
    rw [List.foldl_cons, ih]
    by_cases h : id ∈ attached
    · have h1 : id ∈ found := (hmem id).mpr h
      simp [pushIfMissing, h1, List.filter_cons, h]
    · have h1 : id ∉ found := fun hc => h ((hmem id).mp hc)
      simp [pushIfMissing, h1, List.filter_cons, h, ModifiersList.push_back]

/-- One group branch: scan the rules, then run the `pushIfMissing` statements of a table. -/
theorem scan_then_push (rules : RuleContainer) (rs : List IRule)
    (hrules : rules.m_rules = rs.map some) (table : List Uuid) (modifiers : ModifiersList) :
    (collectExistingRules rules >>= fun existingRules =>
        pure (table.foldl (pushIfMissing existingRules) modifiers) : Except Fault ModifiersList) =
      .ok (modifiers ++ table.filter (fun id => decide (id ∉ rs.map IRule.RTTI_GetType))) := by
  obtain ⟨found, hfound, hmem⟩ := collectExistingRules_map_some rules rs hrules
  rw [hfound]
  show Except.ok _ = _
  rw [foldl_pushIfMissing found _ hmem]

/-- With non-null rules attached, the call appends `CommentRule` and the unattached entries
of the table of the branch taken, or nothing when no branch is taken. -/
theorem GetAvailableModifiers_eq_branchTable (gem : Bool) (ids : TypeIds) (m : ModifiersList)
    (scene : Scene) (target : IManifestObject) (rs : List IRule)
    (hrules : target.GetRuleContainerConst.m_rules = rs.map some) :
    GetAvailableModifiers gem ids m scene target =
      .ok (m ++
        match branchTable gem ids target with
        | none => []
        | some table =>
          ids.CommentRule :: table.filter (fun id => decide (id ∉ rs.map IRule.RTTI_GetType))) := by
  have key := fun table => scan_then_push target.GetRuleContainerConst rs hrules table
    (m.push_back ids.CommentRule)
  unfold GetAvailableModifiers branchTable
  split_ifs
  · refine (key [ids.LodRule, ids.MaterialRule, ids.StaticMeshAdvancedRule, ids.OriginRule,
      ids.PhysicsRule]).trans ?_
    simp [ModifiersList.push_back]
  · refine (key [ids.BlendShapeRule, ids.LodRule, ids.MaterialRule,
      ids.SkinMeshAdvancedRule]).trans ?_
    simp [ModifiersList.push_back]
  · refine (key [ids.SkeletonProxyRule]).trans ?_
    simp [ModifiersList.push_back]
  · simp [ModifiersList.push_back, pure, Except.pure]
  · refine (key [ids.EFXMeshRule, ids.MaterialRule, ids.EFXSkinRule,
      ids.EFXActorScaleRule]).trans ?_
    simp [ModifiersList.push_back]
  · refine (key [ids.EFXMotionCompressionSettingsRule, ids.EFXMotionScaleRule]).trans ?_
    simp [ModifiersList.push_back]
  · simp [pure, Except.pure]

/-- The entries a call appends, when the attached rules are non-null. -/
theorem appendedEntries_eq_branchTable (gem : Bool) (ids : TypeIds) (scene : Scene)
    (target : IManifestObject) (rs : List IRule)
    (hrules : target.GetRuleContainerConst.m_rules = rs.map some) :
    appendedEntries gem ids scene target =
      match branchTable gem ids target with
      | none => []
      | some table =>
        ids.CommentRule :: table.filter (fun id => decide (id ∉ rs.map IRule.RTTI_GetType)) := by
  unfold appendedEntries
  rw [GetAvailableModifiers_eq_branchTable gem ids [] scene target rs hrules]
  simp

/-- Two entries listed one after the other in a list without repetition are different. -/
theorem false_of_eq_of_pair_sublist {l : List Uuid} (hl : l.Nodup) {x y : Uuid} (heq : x = y)
    (hsub : List.Sublist [x, y] l) : False := by
  have h := hl.sublist hsub
  simp [heq] at h

/-- When the rule classes have pairwise distinct type ids, `CommentRule` followed by the
table of any branch lists no type twice. -/
theorem branchTable_nodup (gem : Bool) (ids : TypeIds) (target : IManifestObject)
    (hids : ids.ruleTypes.Nodup) (table : List Uuid)
    (htable : branchTable gem ids target = some table) :
    (ids.CommentRule :: table).Nodup := by
  refine hids.sublist ?_
  unfold branchTable at htable
  unfold TypeIds.ruleTypes
  split_ifs at htable <;> cases htable <;>
    repeat (first
      | exact List.nil_sublist _
      | apply List.Sublist.cons₂
      | apply List.Sublist.cons)

/-- A container without null pointers is a list of rules. -/
theorem exists_rules_of_nonnull (slots : List (Option IRule))
    (hnonnull : ∀ ptr ∈ slots, ptr ≠ none) : ∃ rs : List IRule, slots = rs.map some := by
  induction slots with
  | nil => exact ⟨[], rfl⟩
  | cons ptr rest ih =>
    obtain ⟨rs, hrs⟩ := ih (fun q hq => hnonnull q (List.mem_cons_of_mem _ hq))
    cases ptr with
    | none => exact absurd rfl (hnonnull none (List.mem_cons_self _ _))
    | some r => exact ⟨r :: rs, by simp [hrs]⟩

/-- No branch is taken exactly when the target is of no recognised group kind. -/
theorem branchTable_eq_none_iff (gem : Bool) (ids : TypeIds) (target : IManifestObject) :
    branchTable gem ids target = none ↔ isRecognisedGroup gem ids target = false := by
  unfold branchTable isRecognisedGroup recognisedGroupKinds
  cases gem <;> split_ifs <;> simp_all

/-- Replacing the attached rules does not change the branch taken. -/
theorem branchTable_withRules (gem : Bool) (ids : TypeIds) (target : IManifestObject)
    (rs : List IRule) : branchTable gem ids (target.withRules rs) = branchTable gem ids target :=
  rfl

/-- The branch taken depends on the target only through the recognised group kinds it is
of. -/
theorem branchTable_congr (gem : Bool) (ids : TypeIds) (target₁ target₂ : IManifestObject)
    (hkinds : ∀ kind ∈ recognisedGroupKinds gem ids,
      target₁.RTTI_IsTypeOf kind = target₂.RTTI_IsTypeOf kind) :
    branchTable gem ids target₁ = branchTable gem ids target₂ := by
  unfold branchTable
  cases gem
  · simp only [recognisedGroupKinds, Bool.false_eq_true, if_false, List.append_nil,
      List.mem_cons, List.mem_singleton, List.not_mem_nil, or_false, forall_eq_or_imp,
      forall_eq] at hkinds
    obtain ⟨h1, h2, h3, h4⟩ := hkinds
    simp only [h1, h2, h3, h4, Bool.false_and]
  · simp only [recognisedGroupKinds, if_true, List.cons_append, List.nil_append,
      List.mem_cons, List.mem_singleton, List.not_mem_nil, or_false, forall_eq_or_imp,
      forall_eq] at hkinds
    obtain ⟨h1, h2, h3, h4, h5, h6⟩ := hkinds
    simp only [h1, h2, h3, h4, h5, h6]

/-- The `else if` chain takes the branch of the first entry of `kindTables` whose kind the
target is of. -/
theorem find_kindTables (gem : Bool) (ids : TypeIds) (target : IManifestObject) :
    ((kindTables gem ids).find? (fun entry => target.RTTI_IsTypeOf entry.1)).map Prod.snd =
      branchTable gem ids target := by
  unfold kindTables branchTable
  cases gem <;> simp only [List.find?_cons, Bool.false_eq_true, if_false, if_true,
    List.append_nil, List.cons_append, List.nil_append, List.find?_nil, Bool.false_and,
    Bool.true_and] <;>
    split_ifs <;> simp_all

/-! ## The group branches of GetAvailableModifiers -/

/-- C1: for a target of mesh-group kind with rules `rs` attached, the call leaves
`modifiers` equal to the incoming list followed by CommentRule and then those of LodRule,
MaterialRule, StaticMeshAdvancedRule, OriginRule, PhysicsRule (in this order) whose type is
not the exact type of an attached rule; CommentRule is appended whatever is attached. -/
theorem GetAvailableModifiers_meshGroup (gem : Bool) (ids : TypeIds) (m : ModifiersList)
    (scene : Scene) (target : IManifestObject) (rs : List IRule)
    (hmesh : target.RTTI_IsTypeOf ids.IMeshGroup = true)
    (hrules : target.GetRuleContainerConst.m_rules = rs.map some) :
    GetAvailableModifiers gem ids m scene target =
      .ok (m ++ ids.CommentRule ::
        [ids.LodRule, ids.MaterialRule, ids.StaticMeshAdvancedRule, ids.OriginRule,
          ids.PhysicsRule].filter (fun id => decide (id ∉ rs.map IRule.RTTI_GetType))) := by
  rw [GetAvailableModifiers_eq_branchTable gem ids m scene target rs hrules]
  simp only [branchTable, hmesh, if_true]

/-- Instance of C1: a mesh group carrying a material rule and a comment rule. -/
theorem GetAvailableModifiers_meshGroup_witness :
    GetAvailableModifiers false sampleTypeIds [99] sampleScene
        (sampleObject 1 [sampleRule 12, sampleRule 10]) = .ok [99, 10, 11, 13, 14, 15] :=
  GetAvailableModifiers_meshGroup false sampleTypeIds [99] sampleScene
    (sampleObject 1 [sampleRule 12, sampleRule 10]) [sampleRule 12, sampleRule 10]
    (by decide) rfl

/-- C2: for a target of skin-group kind that is not of mesh-group kind, with rules `rs`
attached, the call leaves `modifiers` equal to the incoming list followed by CommentRule and
then those of BlendShapeRule, LodRule, MaterialRule, SkinMeshAdvancedRule (in this order)
whose type is not the exact type of an attached rule; in particular (the rule classes having
pairwise distinct type ids) none of OriginRule, PhysicsRule and StaticMeshAdvancedRule is
among the entries the call appends. -/
theorem GetAvailableModifiers_skinGroup (gem : Bool) (ids : TypeIds) (m : ModifiersList)
    (scene : Scene) (target : IManifestObject) (rs : List IRule)
    (hmesh : target.RTTI_IsTypeOf ids.IMeshGroup = false)
    (hskin : target.RTTI_IsTypeOf ids.ISkinGroup = true)
    (hrules : target.GetRuleContainerConst.m_rules = rs.map some) :
    GetAvailableModifiers gem ids m scene target =
        .ok (m ++ ids.CommentRule ::
          [ids.BlendShapeRule, ids.LodRule, ids.MaterialRule,
            ids.SkinMeshAdvancedRule].filter
              (fun id => decide (id ∉ rs.map IRule.RTTI_GetType))) ∧
      (ids.ruleTypes.Nodup →
        ∀ id ∈ [ids.OriginRule, ids.PhysicsRule, ids.StaticMeshAdvancedRule],
          id ∉ appendedEntries gem ids scene target) := by
  have htable : branchTable gem ids target =
      some [ids.BlendShapeRule, ids.LodRule, ids.MaterialRule, ids.SkinMeshAdvancedRule] := by
    simp only [branchTable, hmesh, hskin, if_true, Bool.false_eq_true, if_false]
  constructor
  · rw [GetAvailableModifiers_eq_branchTable gem ids m scene target rs hrules, htable]
  · intro hids id hid hmem
    rw [appendedEntries_eq_branchTable gem ids scene target rs hrules, htable] at hmem
    have hmem2 : id ∈ [ids.CommentRule, ids.BlendShapeRule, ids.LodRule, ids.MaterialRule,
        ids.SkinMeshAdvancedRule] := by
      rcases List.mem_cons.mp hmem with h1 | h1
      · exact List.mem_cons.mpr (Or.inl h1)
      · exact List.mem_cons_of_mem _ (List.mem_of_mem_filter h1)
    unfold TypeIds.ruleTypes at hids
    simp only [List.mem_cons, List.mem_singleton, List.not_mem_nil, or_false] at hid hmem2
    rcases hid with rfl | rfl | rfl <;> rcases hmem2 with h | h | h | h | h <;>
      first
      | (refine false_of_eq_of_pair_sublist hids h ?_
         repeat (first
           | exact List.nil_sublist _
           | apply List.Sublist.cons₂
           | apply List.Sublist.cons)
         done)
      | (refine false_of_eq_of_pair_sublist hids h.symm ?_
         repeat (first
           | exact List.nil_sublist _
           | apply List.Sublist.cons₂
           | apply List.Sublist.cons))

/-- Instance of C2: a skin group carrying a LOD rule. -/
theorem GetAvailableModifiers_skinGroup_witness :
    GetAvailableModifiers false sampleTypeIds [99] sampleScene
        (sampleObject 2 [sampleRule 11]) = .ok [99, 10, 16, 12, 17] :=
  (GetAvailableModifiers_skinGroup false sampleTypeIds [99] sampleScene
    (sampleObject 2 [sampleRule 11]) [sampleRule 11] (by decide) (by decide) rfl).1

/-- C3: for a target of skeleton-group kind that is of neither mesh-group nor skin-group
kind, the call leaves `modifiers` equal to the incoming list followed by CommentRule and
SkeletonProxyRule when no attached rule has exact type SkeletonProxyRule, and followed by
CommentRule alone otherwise. -/
theorem GetAvailableModifiers_skeletonGroup (gem : Bool) (ids : TypeIds) (m : ModifiersList)
    (scene : Scene) (target : IManifestObject) (rs : List IRule)
    (hmesh : target.RTTI_IsTypeOf ids.IMeshGroup = false)
    (hskin : target.RTTI_IsTypeOf ids.ISkinGroup = false)
    (hskeleton : target.RTTI_IsTypeOf ids.ISkeletonGroup = true)
    (hrules : target.GetRuleContainerConst.m_rules = rs.map some) :
    ((∀ r ∈ rs, r.RTTI_GetType ≠ ids.SkeletonProxyRule) →
      GetAvailableModifiers gem ids m scene target =
        .ok (m ++ [ids.CommentRule, ids.SkeletonProxyRule])) ∧
    ((∃ r ∈ rs, r.RTTI_GetType = ids.SkeletonProxyRule) →
      GetAvailableModifiers gem ids m scene target = .ok (m ++ [ids.CommentRule])) := by
  rw [GetAvailableModifiers_eq_branchTable gem ids m scene target rs hrules]
  simp only [branchTable, hmesh, hskin, hskeleton, if_true, Bool.false_eq_true, if_false]
  constructor
  · intro h
    have hnot : ids.SkeletonProxyRule ∉ rs.map IRule.RTTI_GetType := by
      simpa using h
    rw [List.filter_cons_of_pos (by simpa using hnot)]
    rfl
  · intro h
    have hin : ids.SkeletonProxyRule ∈ rs.map IRule.RTTI_GetType := by
      simpa using h
    rw [List.filter_cons_of_neg (by simpa using hin)]
    rfl

/-- Instance of C3: a skeleton group without rules, and one carrying a skeleton proxy rule. -/
theorem GetAvailableModifiers_skeletonGroup_witness :
    GetAvailableModifiers false sampleTypeIds [99] sampleScene (sampleObject 3 []) =
        .ok [99, 10, 18] ∧
      GetAvailableModifiers false sampleTypeIds [99] sampleScene
        (sampleObject 3 [sampleRule 18]) = .ok [99, 10] :=
  ⟨(GetAvailableModifiers_skeletonGroup false sampleTypeIds [99] sampleScene
      (sampleObject 3 []) [] (by decide) (by decide) (by decide) rfl).1 (by decide),
    (GetAvailableModifiers_skeletonGroup false sampleTypeIds [99] sampleScene
      (sampleObject 3 [sampleRule 18]) [sampleRule 18] (by decide) (by decide) (by decide)
      rfl).2 (by decide)⟩

/-- C4: for a target of animation-group kind that is of none of the mesh, skin and skeleton
group kinds, the call leaves `modifiers` equal to the incoming list followed by CommentRule,
whatever the rule container of the group holds. -/
theorem GetAvailableModifiers_animationGroup (gem : Bool) (ids : TypeIds) (m : ModifiersList)
    (scene : Scene) (target : IManifestObject)
    (hmesh : target.RTTI_IsTypeOf ids.IMeshGroup = false)
    (hskin : target.RTTI_IsTypeOf ids.ISkinGroup = false)
    (hskeleton : target.RTTI_IsTypeOf ids.ISkeletonGroup = false)
    (hanimation : target.RTTI_IsTypeOf ids.IAnimationGroup = true) :
    GetAvailableModifiers gem ids m scene target = .ok (m ++ [ids.CommentRule]) := by
  simp [GetAvailableModifiers, hmesh, hskin, hskeleton, hanimation, ModifiersList.push_back,
    pure, Except.pure]

/-- Instance of C4: an animation group whose container holds a rule and a null pointer. -/
theorem GetAvailableModifiers_animationGroup_witness :
    GetAvailableModifiers true sampleTypeIds [99] sampleScene
        { sampleObject 4 [] with ruleContainer := { m_rules := [some (sampleRule 10), none] } } =
      .ok [99, 10] :=
  GetAvailableModifiers_animationGroup true sampleTypeIds [99] sampleScene
    { sampleObject 4 [] with ruleContainer := { m_rules := [some (sampleRule 10), none] } }
    (by decide) (by decide) (by decide) (by decide)

/-- C10: in a build with MOTIONCANVAS_GEM_ENABLED, for a target of actor-group kind that is
of none of the mesh, skin, skeleton and animation group kinds, with rules `rs` attached, the
call leaves `modifiers` equal to the incoming list followed by CommentRule and then those of
EFXMeshRule, MaterialRule, EFXSkinRule, EFXActorScaleRule (in this order) whose type is not
the exact type of an attached rule. -/
theorem GetAvailableModifiers_actorGroup (ids : TypeIds) (m : ModifiersList)
    (scene : Scene) (target : IManifestObject) (rs : List IRule)
    (hmesh : target.RTTI_IsTypeOf ids.IMeshGroup = false)
    (hskin : target.RTTI_IsTypeOf ids.ISkinGroup = false)
    (hskeleton : target.RTTI_IsTypeOf ids.ISkeletonGroup = false)
    (hanimation : target.RTTI_IsTypeOf ids.IAnimationGroup = false)
    (hactor : target.RTTI_IsTypeOf ids.IActorGroup = true)
    (hrules : target.GetRuleContainerConst.m_rules = rs.map some) :
    GetAvailableModifiers true ids m scene target =
      .ok (m ++ ids.CommentRule ::
        [ids.EFXMeshRule, ids.MaterialRule, ids.EFXSkinRule,
          ids.EFXActorScaleRule].filter (fun id => decide (id ∉ rs.map IRule.RTTI_GetType))) := by
  rw [GetAvailableModifiers_eq_branchTable true ids m scene target rs hrules]
  simp only [branchTable, hmesh, hskin, hskeleton, hanimation, hactor, if_true,
    Bool.false_eq_true, if_false, Bool.and_self]

/-- Instance of C10: an actor group carrying a material rule and an actor scale rule. -/
theorem GetAvailableModifiers_actorGroup_witness :
    GetAvailableModifiers true sampleTypeIds [99] sampleScene
        (sampleObject 5 [sampleRule 23, sampleRule 12]) = .ok [99, 10, 19, 20] :=
  GetAvailableModifiers_actorGroup sampleTypeIds [99] sampleScene
    (sampleObject 5 [sampleRule 23, sampleRule 12]) [sampleRule 23, sampleRule 12]
    (by decide) (by decide) (by decide) (by decide) (by decide) rfl

/-! ## InitializeObject -/

/-- C5: for a target of physics-rule kind, `InitializeObject` replaces the node selection
list of the rule by the result of `UnselectAll` on the graph of the scene and that list, so
no node of the graph is selected afterwards; every other field of the target and the scene
are as before. -/
theorem InitializeObject_physicsRule (ids : TypeIds) (scene : Scene) (target : IManifestObject)
    (hphysics : target.RTTI_IsTypeOf ids.IPhysicsRule = true) :
    InitializeObject ids scene target =
        (scene, { target with
          sceneNodeSelectionList :=
            SceneGraphSelector.UnselectAll scene.GetGraph target.GetSceneNodeSelectionList }) ∧
      ∀ node ∈ scene.GetGraph.nodeNames,
        node ∉ (InitializeObject ids scene target).2.GetSceneNodeSelectionList.selectedNodes := by
  simp [InitializeObject, hphysics, SceneGraphSelector.UnselectAll,
    IManifestObject.GetSceneNodeSelectionList]

/-- Instance of C5: a physics rule that selects two nodes of a three-node scene. -/
theorem InitializeObject_physicsRule_witness :
    InitializeObject sampleTypeIds sampleScene (sampleObject 7 []) =
      (sampleScene, { sampleObject 7 [] with
        sceneNodeSelectionList :=
          { selectedNodes := [], unselectedNodes := ["root", "root.body", "root.body_phys"] } }) :=
  (InitializeObject_physicsRule sampleTypeIds sampleScene (sampleObject 7 []) (by decide)).1

/-- C6: for a target that is not of physics-rule kind, `InitializeObject` leaves the target
and the scene as they were. -/
theorem InitializeObject_other (ids : TypeIds) (scene : Scene) (target : IManifestObject)
    (hphysics : target.RTTI_IsTypeOf ids.IPhysicsRule = false) :
    InitializeObject ids scene target = (scene, target) := by
  simp [InitializeObject, hphysics]

/-- Instance of C6: a mesh group and a comment rule are left alone. -/
theorem InitializeObject_other_witness :
    InitializeObject sampleTypeIds sampleScene (sampleObject 1 [sampleRule 15]) =
        (sampleScene, sampleObject 1 [sampleRule 15]) ∧
      InitializeObject sampleTypeIds sampleScene (sampleObject 10 []) =
        (sampleScene, sampleObject 10 []) :=
  ⟨InitializeObject_other sampleTypeIds sampleScene (sampleObject 1 [sampleRule 15]) (by decide),
    InitializeObject_other sampleTypeIds sampleScene (sampleObject 10 []) (by decide)⟩

/-! ## The modifiers list as a set -/

/-- C7 as stated fails: a mesh group without rules, called with an incoming list that
already holds CommentRule (and holds nothing twice), ends with CommentRule twice. -/
theorem GetAvailableModifiers_repeats_incoming_entry :
    isRecognisedGroup false sampleTypeIds (sampleObject 1 []) = true ∧
      (sampleObject 1 []).GetRuleContainerConst.m_rules = ([] : List IRule).map some ∧
      [sampleTypeIds.CommentRule].Nodup ∧
      GetAvailableModifiers false sampleTypeIds [sampleTypeIds.CommentRule] sampleScene
        (sampleObject 1 []) = .ok [10, 10, 11, 12, 13, 14, 15] ∧
      ¬ [10, 10, 11, 12, 13, 14, 15].Nodup :=
  ⟨by decide, rfl, by decide, rfl, by decide⟩

/-- C7, amended: when the rule classes have pairwise distinct type ids, for a recognised
group target with rules `rs` attached and an incoming list that holds no type twice and
none of the entries the call appends, the list after the call holds no type twice. -/
theorem GetAvailableModifiers_nodup (gem : Bool) (ids : TypeIds) (m : ModifiersList)
    (scene : Scene) (target : IManifestObject) (rs : List IRule)
    (_hkind : isRecognisedGroup gem ids target = true)
    (hrules : target.GetRuleContainerConst.m_rules = rs.map some)
    (hids : ids.ruleTypes.Nodup)
    (hm : m.Nodup)
    (hfresh : ∀ id ∈ m, id ∉ appendedEntries gem ids scene target) :
    ∃ out, GetAvailableModifiers gem ids m scene target = .ok out ∧ out.Nodup := by
  refine ⟨_, GetAvailableModifiers_eq_branchTable gem ids m scene target rs hrules, ?_⟩
  rw [appendedEntries_eq_branchTable gem ids scene target rs hrules] at hfresh
  have hsuffix : (match branchTable gem ids target with
      | none => []
      | some table =>
        ids.CommentRule :: table.filter (fun id => decide (id ∉ rs.map IRule.RTTI_GetType))).Nodup := by
    cases htable : branchTable gem ids target with
    | none => exact List.nodup_nil
    | some table =>
      have hnodup := branchTable_nodup gem ids target hids table htable
      rw [List.nodup_cons] at hnodup ⊢
      exact ⟨fun h => hnodup.1 (List.mem_of_mem_filter h), hnodup.2.filter _⟩
  exact List.Nodup.append hm hsuffix (fun id h1 h2 => hfresh id h1 h2)

/-- Instance of the amended C7: a skin group carrying a LOD rule, called with a list that
holds two foreign entries. -/
theorem GetAvailableModifiers_nodup_witness :
    ∃ out, GetAvailableModifiers true sampleTypeIds [98, 99] sampleScene
        (sampleObject 2 [sampleRule 11]) = .ok out ∧ out.Nodup :=
  GetAvailableModifiers_nodup true sampleTypeIds [98, 99] sampleScene
    (sampleObject 2 [sampleRule 11]) [sampleRule 11] (by decide) rfl (by decide) (by decide)
    (by decide)

/-! ## Absence of faults -/

/-- C8: when no slot of the rule container of the target is null, the call returns a list
(for every target, build and incoming list), and every index the rule scan visits is below
`GetRuleCount`, where `GetRule` yields a rule. -/
theorem GetAvailableModifiers_never_fails (gem : Bool) (ids : TypeIds) (m : ModifiersList)
    (scene : Scene) (target : IManifestObject)
    (hnonnull : ∀ ptr ∈ target.GetRuleContainerConst.m_rules, ptr ≠ none) :
    (∃ out, GetAvailableModifiers gem ids m scene target = .ok out) ∧
      ∀ i ∈ List.range target.GetRuleContainerConst.GetRuleCount,
        i < target.GetRuleContainerConst.GetRuleCount ∧
          ∃ rule, target.GetRuleContainerConst.GetRule i = .ok (some rule) := by
  obtain ⟨rs, hrules⟩ := exists_rules_of_nonnull _ hnonnull
  refine ⟨⟨_, GetAvailableModifiers_eq_branchTable gem ids m scene target rs hrules⟩, ?_⟩
  intro i hi
  have hcount : target.GetRuleContainerConst.GetRuleCount = rs.length := by
    simp [RuleContainer.GetRuleCount, hrules]
  have hlt : i < rs.length := hcount ▸ List.mem_range.mp hi
  exact ⟨List.mem_range.mp hi, _, GetRule_map_some _ rs hrules i hlt⟩

/-- Instance of C8: a skeleton group carrying two rules. -/
theorem GetAvailableModifiers_never_fails_witness :
    (∃ out, GetAvailableModifiers false sampleTypeIds [] sampleScene
        (sampleObject 3 [sampleRule 10, sampleRule 18]) = .ok out) ∧
      ∀ i ∈ List.range 2, i < 2 ∧
        ∃ rule, (sampleObject 3 [sampleRule 10, sampleRule 18]).GetRuleContainerConst.GetRule i =
          .ok (some rule) :=
  GetAvailableModifiers_never_fails false sampleTypeIds [] sampleScene
    (sampleObject 3 [sampleRule 10, sampleRule 18]) (by decide)

/-! ## Bus connection -/

/-- C9: in every reachable state the handler is connected to the bus exactly when it is
alive; constructing leaves it alive and connected, destroying leaves it neither, and the two
callbacks return the handler as it was. -/
theorem connected_iff_alive (self : ManifestMetaInfoHandler)
    (hreach : ManifestMetaInfoHandler.Reachable self) :
    (self.connected = true ↔ self.alive = true) ∧
      (self.construct.alive = true ∧ self.construct.connected = true) ∧
      (self.destruct.alive = false ∧ self.destruct.connected = false) ∧
      (∀ gem ids m scene target,
        (self.callGetAvailableModifiers gem ids m scene target).1 = self) ∧
      (∀ ids scene target, (self.callInitializeObject ids scene target).1 = self) := by
  refine ⟨?_, ⟨rfl, rfl⟩, ⟨rfl, rfl⟩, fun _ _ _ _ _ => rfl, fun _ _ _ => rfl⟩
  induction hreach with
  | start => simp [ManifestMetaInfoHandler.unconstructed]
  | step _ hstep ih =>
    cases hstep with
    | construct _ =>
      simp [ManifestMetaInfoHandler.construct, ManifestMetaInfoHandler.BusConnect]
    | destruct _ =>
      simp [ManifestMetaInfoHandler.destruct, ManifestMetaInfoHandler.BusDisconnect]
    | getAvailableModifiers _ _ _ _ _ _ => exact ih
    | initializeObject _ _ _ _ => exact ih

/-- Instance of C9: the state right after construction. -/
theorem connected_iff_alive_witness :
    ManifestMetaInfoHandler.unconstructed.construct.connected = true ↔
      ManifestMetaInfoHandler.unconstructed.construct.alive = true :=
  (connected_iff_alive ManifestMetaInfoHandler.unconstructed.construct
    (.step .start (.construct _ rfl))).1

/-! ## Further facts about the dispatch -/

/-- C11: in a build with MOTIONCANVAS_GEM_ENABLED, for a target of motion-group kind that is
of none of the mesh, skin, skeleton, animation and actor group kinds, with rules `rs`
attached, the call leaves `modifiers` equal to the incoming list followed by CommentRule and
then those of EFXMotionCompressionSettingsRule, EFXMotionScaleRule (in this order) whose
type is not the exact type of an attached rule. -/
theorem GetAvailableModifiers_motionGroup (ids : TypeIds) (m : ModifiersList)
    (scene : Scene) (target : IManifestObject) (rs : List IRule)
    (hmesh : target.RTTI_IsTypeOf ids.IMeshGroup = false)
    (hskin : target.RTTI_IsTypeOf ids.ISkinGroup = false)
    (hskeleton : target.RTTI_IsTypeOf ids.ISkeletonGroup = false)
    (hanimation : target.RTTI_IsTypeOf ids.IAnimationGroup = false)
    (hactor : target.RTTI_IsTypeOf ids.IActorGroup = false)
    (hmotion : target.RTTI_IsTypeOf ids.IEFXMotionGroup = true)
    (hrules : target.GetRuleContainerConst.m_rules = rs.map some) :
    GetAvailableModifiers true ids m scene target =
      .ok (m ++ ids.CommentRule ::
        [ids.EFXMotionCompressionSettingsRule, ids.EFXMotionScaleRule].filter
          (fun id => decide (id ∉ rs.map IRule.RTTI_GetType))) := by
  rw [GetAvailableModifiers_eq_branchTable true ids m scene target rs hrules]
  simp only [branchTable, hmesh, hskin, hskeleton, hanimation, hactor, hmotion, if_true,
    Bool.false_eq_true, if_false, Bool.and_self, Bool.and_false]

/-- Instance of C11: a motion group carrying a motion scale rule and a comment rule. -/
theorem GetAvailableModifiers_motionGroup_witness :
    GetAvailableModifiers true sampleTypeIds [99] sampleScene
        (sampleObject 6 [sampleRule 22, sampleRule 10]) = .ok [99, 10, 21] :=
  GetAvailableModifiers_motionGroup sampleTypeIds [99] sampleScene
    (sampleObject 6 [sampleRule 22, sampleRule 10]) [sampleRule 22, sampleRule 10]
    (by decide) (by decide) (by decide) (by decide) (by decide) (by decide) rfl

/-- C13: the call only appends. For every build, target and list `rs` of attached rules
there is one list of entries such that, whatever the incoming list, the list after the call
is the incoming list followed by these entries. -/
theorem GetAvailableModifiers_appends (gem : Bool) (ids : TypeIds) (scene : Scene)
    (target : IManifestObject) (rs : List IRule)
    (hrules : target.GetRuleContainerConst.m_rules = rs.map some) :
    ∃ suffix : List Uuid, ∀ m : ModifiersList,
      GetAvailableModifiers gem ids m scene target = .ok (m ++ suffix) :=
  ⟨_, fun m => GetAvailableModifiers_eq_branchTable gem ids m scene target rs hrules⟩

/-- Instance of C13: a mesh group carrying a material rule, called with two different
incoming lists. -/
theorem GetAvailableModifiers_appends_witness :
    ∃ suffix : List Uuid, ∀ m : ModifiersList,
      GetAvailableModifiers false sampleTypeIds m sampleScene
        (sampleObject 1 [sampleRule 12]) = .ok (m ++ suffix) :=
  GetAvailableModifiers_appends false sampleTypeIds sampleScene
    (sampleObject 1 [sampleRule 12]) [sampleRule 12] rfl

/-- C14: for a target of none of the group kinds recognised in the build, the call leaves
the modifiers list as it was, whatever the rule container holds; CommentRule is not
appended. -/
theorem GetAvailableModifiers_unrecognised (gem : Bool) (ids : TypeIds) (m : ModifiersList)
    (scene : Scene) (target : IManifestObject)
    (hkind : isRecognisedGroup gem ids target = false) :
    GetAvailableModifiers gem ids m scene target = .ok m := by
  unfold isRecognisedGroup recognisedGroupKinds at hkind
  unfold GetAvailableModifiers
  cases gem <;> simp_all [pure, Except.pure]

/-- Instance of C14: a physics rule object; an actor group in a build without
MOTIONCANVAS_GEM_ENABLED. -/
theorem GetAvailableModifiers_unrecognised_witness :
    GetAvailableModifiers true sampleTypeIds [99] sampleScene (sampleObject 15 []) = .ok [99] ∧
      GetAvailableModifiers false sampleTypeIds [99] sampleScene
        (sampleObject 5 [sampleRule 12]) = .ok [99] :=
  ⟨GetAvailableModifiers_unrecognised true sampleTypeIds [99] sampleScene (sampleObject 15 [])
      (by decide),
    GetAvailableModifiers_unrecognised false sampleTypeIds [99] sampleScene
      (sampleObject 5 [sampleRule 12]) (by decide)⟩

/-- C12: for a target of a recognised group kind (the rule classes having pairwise distinct
type ids), attaching one more rule `r` of exact type `T` to the rules `rs` removes `T` from
the entries the call appends when `T` is not CommentRule, and leaves the entries as they
were when `T` is CommentRule or was not among them; and when every type offered to the
group without rules, CommentRule apart, is the exact type of a rule of `rs`, the call
appends CommentRule alone. -/
theorem appendedEntries_attach_rule (gem : Bool) (ids : TypeIds) (scene : Scene)
    (target : IManifestObject) (rs : List IRule) (r : IRule)
    (hkind : isRecognisedGroup gem ids target = true)
    (hids : ids.ruleTypes.Nodup) :
    (r.RTTI_GetType ≠ ids.CommentRule →
      appendedEntries gem ids scene (target.withRules (rs ++ [r])) =
        (appendedEntries gem ids scene (target.withRules rs)).filter
          (fun id => decide (id ≠ r.RTTI_GetType))) ∧
    ((r.RTTI_GetType = ids.CommentRule ∨
        r.RTTI_GetType ∉ appendedEntries gem ids scene (target.withRules rs)) →
      appendedEntries gem ids scene (target.withRules (rs ++ [r])) =
        appendedEntries gem ids scene (target.withRules rs)) ∧
    ((∀ id ∈ appendedEntries gem ids scene (target.withRules []),
        id ≠ ids.CommentRule → id ∈ rs.map IRule.RTTI_GetType) →
      appendedEntries gem ids scene (target.withRules rs) = [ids.CommentRule]) := by
  have happended : ∀ rs₀ : List IRule,
      appendedEntries gem ids scene (target.withRules rs₀) =
        match branchTable gem ids target with
        | none => []
        | some table =>
          ids.CommentRule ::
            table.filter (fun id => decide (id ∉ rs₀.map IRule.RTTI_GetType)) := by
    intro rs₀
    rw [appendedEntries_eq_branchTable gem ids scene (target.withRules rs₀) rs₀ rfl,
      branchTable_withRules]
  cases htable : branchTable gem ids target with
  | none =>
    have hnot := (branchTable_eq_none_iff gem ids target).mp htable
    rw [hkind] at hnot
    exact absurd hnot (by decide)
  | some table =>
    have hnodup := branchTable_nodup gem ids target hids table htable
    have hcomment : ids.CommentRule ∉ table := (List.nodup_cons.mp hnodup).1
    simp only [happended, htable]
    refine ⟨?_, ?_, ?_⟩
    · intro hne
      rw [List.filter_cons_of_pos (by simpa using fun h => hne h.symm), List.filter_filter]
      congr 1
      apply List.filter_congr
      intro id _
      by_cases h1 : id = r.RTTI_GetType <;> by_cases h2 : id ∈ rs.map IRule.RTTI_GetType <;>
        simp [h1, h2]
    · intro hcase
      congr 1
      apply List.filter_congr
      intro id hid
      by_cases h2 : id ∈ rs.map IRule.RTTI_GetType
      · simp [h2]
      · have hne : id ≠ r.RTTI_GetType := by
          intro heq
          rcases hcase with hc | hc
          · exact hcomment (hc ▸ heq ▸ hid)
          · exact hc (heq ▸ List.mem_cons_of_mem _
              (List.mem_filter.mpr ⟨hid, by simpa using h2⟩))
        simp [h2, hne]
    · intro hall
      congr 1
      rw [List.filter_eq_nil_iff]
      intro id hid
      have hne : id ≠ ids.CommentRule := fun heq => hcomment (heq ▸ hid)
      have := hall id (List.mem_cons_of_mem _ (List.mem_filter.mpr ⟨hid, by simp⟩)) hne
      simpa using this

/-- Instance of C12: a mesh group carrying a material rule gets a LOD rule attached. -/
theorem appendedEntries_attach_rule_witness :
    appendedEntries false sampleTypeIds sampleScene
        ((sampleObject 1 []).withRules ([sampleRule 12] ++ [sampleRule 11])) =
      (appendedEntries false sampleTypeIds sampleScene
        ((sampleObject 1 []).withRules [sampleRule 12])).filter
          (fun id => decide (id ≠ (sampleRule 11).RTTI_GetType)) :=
  (appendedEntries_attach_rule false sampleTypeIds sampleScene (sampleObject 1 [])
    [sampleRule 12] (sampleRule 11) (by decide) (by decide)).1 (by decide)

/-- C15: the entries the call appends depend only on the recognised group kinds the target
is of and on the set of exact types of the attached rules. Two targets of the same kinds
whose attached rules have the same exact types get the same entries, whatever the scenes,
the order, the multiplicity and the other contents of the rules; and an entry `R` that is
appended stays appended when a rule of an exact type other than `R` is attached. -/
theorem appendedEntries_depends_on_kinds_and_types (gem : Bool) (ids : TypeIds)
    (scene₁ scene₂ : Scene) (target₁ target₂ : IManifestObject) (rs₁ rs₂ : List IRule)
    (hrules₁ : target₁.GetRuleContainerConst.m_rules = rs₁.map some)
    (hrules₂ : target₂.GetRuleContainerConst.m_rules = rs₂.map some)
    (hkinds : ∀ kind ∈ recognisedGroupKinds gem ids,
      target₁.RTTI_IsTypeOf kind = target₂.RTTI_IsTypeOf kind)
    (htypes₁ : ∀ id ∈ rs₁.map IRule.RTTI_GetType, id ∈ rs₂.map IRule.RTTI_GetType)
    (htypes₂ : ∀ id ∈ rs₂.map IRule.RTTI_GetType, id ∈ rs₁.map IRule.RTTI_GetType) :
    appendedEntries gem ids scene₁ target₁ = appendedEntries gem ids scene₂ target₂ ∧
      ∀ (R : Uuid) (r : IRule), r.RTTI_GetType ≠ R →
        R ∈ appendedEntries gem ids scene₁ target₁ →
        R ∈ appendedEntries gem ids scene₁ (target₁.withRules (rs₁ ++ [r])) := by
  rw [appendedEntries_eq_branchTable gem ids scene₁ target₁ rs₁ hrules₁,
    appendedEntries_eq_branchTable gem ids scene₂ target₂ rs₂ hrules₂,
    branchTable_congr gem ids target₁ target₂ hkinds]
  constructor
  · cases branchTable gem ids target₂ with
    | none => rfl
    | some table =>
      show _ :: _ = _ :: _
      congr 1
      apply List.filter_congr
      intro id _
      by_cases h : id ∈ rs₁.map IRule.RTTI_GetType
      · simp only [h, htypes₁ id h, not_true_eq_false]
      · have h2 : id ∉ rs₂.map IRule.RTTI_GetType := fun hc => h (htypes₂ id hc)
        simp only [h, h2, not_false_eq_true]
  · intro R r hne hmem
    rw [appendedEntries_eq_branchTable gem ids scene₁ (target₁.withRules (rs₁ ++ [r]))
      (rs₁ ++ [r]) rfl, branchTable_withRules, branchTable_congr gem ids target₁ target₂ hkinds]
    cases htable : branchTable gem ids target₂ with
    | none => simp [htable] at hmem
    | some table =>
      simp only [htable, List.mem_cons, List.mem_filter, decide_eq_true_eq] at hmem ⊢
      rcases hmem with h | ⟨h1, h2⟩
      · exact Or.inl h
      · refine Or.inr ⟨h1, ?_⟩
        simp only [List.map_append, List.map_cons, List.map_nil, List.mem_append,
          List.mem_singleton, not_or]
        exact ⟨h2, fun h => hne h.symm⟩

/-- Instance of C15: two mesh groups of different classes in different scenes, whose rules
differ in order, multiplicity, bases and contents but not in their exact types. -/
theorem appendedEntries_depends_on_kinds_and_types_witness :
    appendedEntries true sampleTypeIds sampleScene
        (sampleObject 1 [sampleRule 12, sampleRule 11]) =
      appendedEntries true sampleTypeIds { name := "other", graph := { nodeNames := [] } }
        { typeId := 200, baseTypes := [50, 1], contents := 7,
          sceneNodeSelectionList := { selectedNodes := [], unselectedNodes := [] },
          ruleContainer := { m_rules :=
            [some { typeId := 11, baseTypes := [13], contents := 3 }, some (sampleRule 12),
              some (sampleRule 11)] } } :=
  (appendedEntries_depends_on_kinds_and_types true sampleTypeIds sampleScene
    { name := "other", graph := { nodeNames := [] } }
    (sampleObject 1 [sampleRule 12, sampleRule 11])
    { typeId := 200, baseTypes := [50, 1], contents := 7,
      sceneNodeSelectionList := { selectedNodes := [], unselectedNodes := [] },
      ruleContainer := { m_rules :=
        [some { typeId := 11, baseTypes := [13], contents := 3 }, some (sampleRule 12),
          some (sampleRule 11)] } }
    [sampleRule 12, sampleRule 11]
    [{ typeId := 11, baseTypes := [13], contents := 3 }, sampleRule 12, sampleRule 11]
    rfl rfl (by decide) (by decide) (by decide)).1

/-- C16: dispatch is first-match over the group kinds in their fixed order. For a target of
one or several recognised group kinds (the rule classes having pairwise distinct type ids)
there is a first entry of the kind table whose kind the target is of, the call appends
CommentRule followed by the unattached types of the table of that entry and nothing else, and
CommentRule occurs exactly once among the appended entries. -/
theorem GetAvailableModifiers_first_match (gem : Bool) (ids : TypeIds) (scene : Scene)
    (target : IManifestObject) (rs : List IRule)
    (hkind : isRecognisedGroup gem ids target = true)
    (hrules : target.GetRuleContainerConst.m_rules = rs.map some)
    (hids : ids.ruleTypes.Nodup) :
    ∃ kind table,
      (kindTables gem ids).find? (fun entry => target.RTTI_IsTypeOf entry.1) =
          some (kind, table) ∧
        (∀ m : ModifiersList, GetAvailableModifiers gem ids m scene target =
          .ok (m ++ ids.CommentRule ::
            table.filter (fun id => decide (id ∉ rs.map IRule.RTTI_GetType)))) ∧
        (appendedEntries gem ids scene target).count ids.CommentRule = 1 := by
  have hfind := find_kindTables gem ids target
  cases htable : branchTable gem ids target with
  | none =>
    have hnot := (branchTable_eq_none_iff gem ids target).mp htable
    rw [hkind] at hnot
    exact absurd hnot (by decide)
  | some table =>
    rw [htable] at hfind
    cases hentry : (kindTables gem ids).find? (fun entry => target.RTTI_IsTypeOf entry.1) with
    | none => simp [hentry] at hfind
    | some entry =>
      obtain ⟨kind, table₀⟩ := entry
      have htable₀ : table₀ = table := by simpa [hentry] using hfind
      subst htable₀
      refine ⟨kind, table₀, rfl, ?_, ?_⟩
      · intro m
        rw [GetAvailableModifiers_eq_branchTable gem ids m scene target rs hrules, htable]
      · have hnodup := branchTable_nodup gem ids target hids table₀ htable
        have hcomment : ids.CommentRule ∉ table₀ := (List.nodup_cons.mp hnodup).1
        rw [appendedEntries_eq_branchTable gem ids scene target rs hrules, htable]
        show List.count ids.CommentRule (ids.CommentRule :: _) = 1
        rw [List.count_cons_self, List.count_eq_zero.mpr
          (fun h => hcomment (List.mem_of_mem_filter h))]

/-- Instance of C16: an object that is of skin-group and of mesh-group kind, carrying a
blend shape rule, is treated as a mesh group. -/
theorem GetAvailableModifiers_first_match_witness :
    (∃ kind table,
      (kindTables true sampleTypeIds).find?
          (fun entry => ({ sampleObject 2 [sampleRule 16] with
            baseTypes := [6, 2, 1] } : IManifestObject).RTTI_IsTypeOf entry.1) =
          some (kind, table) ∧
        (∀ m : ModifiersList, GetAvailableModifiers true sampleTypeIds m sampleScene
            { sampleObject 2 [sampleRule 16] with baseTypes := [6, 2, 1] } =
          .ok (m ++ sampleTypeIds.CommentRule ::
            table.filter (fun id => decide (id ∉ [sampleRule 16].map IRule.RTTI_GetType)))) ∧
        (appendedEntries true sampleTypeIds sampleScene
          { sampleObject 2 [sampleRule 16] with baseTypes := [6, 2, 1] }).count
            sampleTypeIds.CommentRule = 1) ∧
      GetAvailableModifiers true sampleTypeIds [99] sampleScene
          { sampleObject 2 [sampleRule 16] with baseTypes := [6, 2, 1] } =
        .ok [99, 10, 11, 12, 13, 14, 15] :=
  ⟨GetAvailableModifiers_first_match true sampleTypeIds sampleScene
      { sampleObject 2 [sampleRule 16] with baseTypes := [6, 2, 1] } [sampleRule 16]
      (by decide) rfl (by decide),
    rfl⟩

end SceneData
